import Mathlib

/-!
Verification development for the doproxy reverse proxy.

Shallow embeddings of the load-balancing strategies
(src/server/loadbalancing.go), the backend health monitor and the
instrumented transport (src/server/backend.go), the configuration
reload path (Server.UpdateConfig and ReverseProxy), and the inventory
persistence (src/server/inventory.go), together with theorems about
their behaviour.
-/

namespace Doproxy

/-! ## Round-robin load balancer (src/server/loadbalancing.go, roundRobin.Backend) -/

/--
One call of `roundRobin.Backend` as a fuel-indexed loop.

`healthy` lists the health flags of the backends of the bound inventory in
sequence order; `first` is the value saved from `r.next` on entry
(`first := r.next`); `next` is the running cursor.  Each iteration computes
`ni := next % len`, sets the cursor to `ni + 1`, returns backend `ni` when it
is healthy, and otherwise returns the nil result when the new cursor equals
`first`.  The result is `none` when the fuel runs out before the loop exits,
otherwise `some (result, cursor)` where `result` is the index of the returned
backend (`none` for the Go `nil` return) and `cursor` is the value left in
`r.next` for the following call.  (For an empty inventory the Go code panics
on `next % 0`; the model simply never exits, so no theorem below concerns the
empty inventory except through its stated failure.)
-/
def rrLoop (healthy : List Bool) (first : Nat) : Nat → Nat → Option (Option Nat × Nat)
  | 0, _ => none
  | fuel + 1, next =>
    if healthy.getD (next % healthy.length) false then
      some (some (next % healthy.length), next % healthy.length + 1)
    else if next % healthy.length + 1 = first then
      some (none, next % healthy.length + 1)
    else rrLoop healthy first fuel (next % healthy.length + 1)

/-- A single `roundRobin.Backend()` call from cursor state `cursor`
(the loop runs with `first := r.next = cursor`). -/
def rrCall (healthy : List Bool) (cursor fuel : Nat) : Option (Option Nat × Nat) :=
  rrLoop healthy cursor fuel cursor

/-- Result of the k-th successive `Backend()` call (0-indexed) starting from
cursor state `cursor`, threading the persistent cursor between calls; each
call runs with the given fuel. -/
def rrCallSeq (healthy : List Bool) (fuel : Nat) : Nat → Nat → Option (Option Nat × Nat)
  | 0, cursor => rrCall healthy cursor fuel
  | k + 1, cursor =>
    (rrCall healthy cursor fuel).bind (fun rc => rrCallSeq healthy fuel k rc.2)

/-- The call never exits: no amount of fuel makes `rrCall` finish. -/
def rrDiverges (healthy : List Bool) (cursor : Nat) : Prop :=
  ∀ fuel, rrCall healthy cursor fuel = none

/-- Over the one-backend all-unhealthy inventory with saved entry cursor 0,
the loop body maps every cursor to 1 and neither exit test ever fires, so the
loop never terminates whatever the fuel. -/
theorem rrLoop_single_false (fuel next : Nat) :
    rrLoop [false] 0 fuel next = none := by
  induction fuel generalizing next with
  | zero => rfl
  | succ n ih =>
    rw [rrLoop]
    simp only [List.length_cons, List.length_nil, Nat.mod_one, List.getD_cons_zero,
      Bool.false_eq_true, if_false, Nat.zero_add]
    simpa using ih 1

/-- When the backend under the current cursor is healthy, the call returns it
on the first iteration and leaves the cursor one past it. -/
theorem rrLoop_found (healthy : List Bool) (first next fuel : Nat)
    (h : healthy.getD (next % healthy.length) false = true) :
    rrLoop healthy first (fuel + 1) next =
      some (some (next % healthy.length), next % healthy.length + 1) := by
  rw [rrLoop, if_pos h]

/-- Every element of an all-true list reads back true. -/
theorem getD_all_true (l : List Bool) (i : Nat) (hi : i < l.length)
    (hall : ∀ b ∈ l, b = true) : l.getD i false = true := by
  induction l generalizing i with
  | nil => simp at hi
  | cons a t ih =>
    cases i with
    | zero => simpa using hall a (by simp)
    | succ n =>
      rw [List.getD_cons_succ]
      exact ih n (by simpa using hi) (fun b hb => hall b (by simp [hb]))

/-- All backends healthy: the k-th call from cursor `c` returns backend
`(c + k) % N` and leaves the cursor one past it. -/
theorem rrCallSeq_all_healthy (healthy : List Bool)
    (hne : healthy ≠ []) (hall : ∀ b ∈ healthy, b = true) (k c : Nat) :
    rrCallSeq healthy (healthy.length + 1) k c =
      some (some ((c + k) % healthy.length), (c + k) % healthy.length + 1) := by
  have hlen : 0 < healthy.length := List.length_pos.mpr hne
  induction k generalizing c with
  | zero =>
    rw [rrCallSeq, rrCall, rrLoop_found healthy c c healthy.length
      (getD_all_true healthy _ (Nat.mod_lt c hlen) hall)]
    simp
  | succ n ih =>
    have hcall : rrCall healthy c (healthy.length + 1)
        = some (some (c % healthy.length), c % healthy.length + 1) :=
      rrLoop_found healthy c c healthy.length
        (getD_all_true healthy _ (Nat.mod_lt c hlen) hall)
    rw [rrCallSeq, hcall, Option.some_bind]
    rw [ih (c % healthy.length + 1)]
    have : (c % healthy.length + 1 + n) % healthy.length
        = (c + (n + 1)) % healthy.length := by
      have h2 : c % healthy.length ≡ c [MOD healthy.length] := Nat.mod_modEq c _
      calc (c % healthy.length + 1 + n) % healthy.length
          = (c + 1 + n) % healthy.length := (h2.add_right 1).add_right n
        _ = (c + (n + 1)) % healthy.length := by ring_nf
    rw [this]

/-- Health flags of an inventory of `N` backends whose only unhealthy backend
sits at index `u`. -/
def unhealthyAt (N u : Nat) : List Bool :=
  (List.range N).map (fun i => i != u)

/-- Backend index returned by one round-robin call from cursor `c` over
`unhealthyAt N u`: the scan position `c % N` itself when it is healthy, else
the position right after it (wrapping). -/
def nextHealthy (N u c : Nat) : Nat :=
  if c % N = u then (c % N + 1) % N else c % N

/-- The j-th smallest backend index different from `u`. -/
def hsIdx (u j : Nat) : Nat :=
  if j < u then j else j + 1

theorem unhealthyAt_length (N u : Nat) : (unhealthyAt N u).length = N := by
  simp [unhealthyAt]

theorem unhealthyAt_getD (N u i : Nat) (hi : i < N) :
    (unhealthyAt N u).getD i false = (i != u) := by
  rw [unhealthyAt, List.getD_eq_getElem?_getD, List.getElem?_map,
    List.getElem?_range hi, Option.map_some', Option.getD_some]

/-- One round-robin call over `unhealthyAt N u` from any cursor `c ≤ N`
returns backend `nextHealthy N u c` and leaves the cursor one past it. -/
theorem rrCall_oneUnhealthy (N u c : Nat) (hN : 2 ≤ N) (hu : u < N) (hc : c ≤ N) :
    rrCall (unhealthyAt N u) c (N + 1) =
      some (some (nextHealthy N u c), nextHealthy N u c + 1) := by
  obtain ⟨M, rfl⟩ : ∃ M, N = M + 2 := ⟨N - 2, by omega⟩
  have hN0 : 0 < M + 2 := by omega
  have hmod : c % (M + 2) < M + 2 := Nat.mod_lt c hN0
  by_cases h : c % (M + 2) = u
  · -- the scan starts on the unhealthy backend and skips to the next index
    have hb1 : (unhealthyAt (M + 2) u).getD (c % (M + 2)) false = false := by
      rw [unhealthyAt_getD _ _ _ hmod, h]
      simp
    have hne : c % (M + 2) + 1 ≠ c := by
      rcases Nat.lt_or_ge c (M + 2) with hlt | hge
      · rw [Nat.mod_eq_of_lt hlt]; omega
      · have hceq : c = M + 2 := by omega
        rw [hceq, Nat.mod_self]; omega
    have h2 : (c % (M + 2) + 1) % (M + 2) ≠ u := by
      intro he
      rw [h] at he
      rcases Nat.lt_or_ge (u + 1) (M + 2) with hlt | hge
      · rw [Nat.mod_eq_of_lt hlt] at he; omega
      · have hueq : u + 1 = M + 2 := by omega
        rw [hueq, Nat.mod_self] at he; omega
    have hb2 : (unhealthyAt (M + 2) u).getD
        ((c % (M + 2) + 1) % (M + 2)) false = true := by
      rw [unhealthyAt_getD _ _ _ (Nat.mod_lt _ hN0)]
      exact bne_iff_ne.mpr h2
    rw [rrCall, rrLoop]
    rw [unhealthyAt_length, hb1]
    simp only [Bool.false_eq_true, if_false, if_neg hne]
    rw [rrLoop]
    rw [unhealthyAt_length, hb2]
    simp only [if_true, nextHealthy, if_pos h]
  · -- the scan position itself is healthy
    have hb1 : (unhealthyAt (M + 2) u).getD (c % (M + 2)) false = true := by
      rw [unhealthyAt_getD _ _ _ hmod]
      simp [h]
    rw [rrCall, rrLoop]
    rw [unhealthyAt_length, hb1]
    simp only [if_true, nextHealthy, if_neg h]

/-- Advancing the cursor one past the j-th healthy index and scanning again
finds the (j+1 mod N-1)-th healthy index. -/
theorem nextHealthy_hsIdx (N u j : Nat) (hN : 2 ≤ N) (hu : u < N) (hj : j < N - 1) :
    nextHealthy N u (hsIdx u j + 1) = hsIdx u ((j + 1) % (N - 1)) := by
  have hM : 0 < N - 1 := by omega
  by_cases h1 : j < u
  · -- the j-th healthy index is j itself
    rw [hsIdx, if_pos h1, nextHealthy]
    have hjN : j + 1 < N := by omega
    rw [Nat.mod_eq_of_lt hjN]
    by_cases h2 : j + 1 = u
    · rw [if_pos h2, h2]
      by_cases h3 : u + 1 < N
      · rw [Nat.mod_eq_of_lt h3]
        have hru : u < N - 1 := by omega
        rw [Nat.mod_eq_of_lt hru, hsIdx, if_neg (by omega)]
      · have hun : u + 1 = N := by omega
        rw [hun, Nat.mod_self]
        have hu0 : u % (N - 1) = 0 := by
          have hue : u = N - 1 := by omega
          rw [hue, Nat.mod_self]
        rw [hu0, hsIdx, if_pos (by omega)]
    · rw [if_neg h2]
      rw [Nat.mod_eq_of_lt (by omega : j + 1 < N - 1), hsIdx, if_pos (by omega)]
  · -- the j-th healthy index is j + 1
    rw [hsIdx, if_neg h1, nextHealthy]
    by_cases h4 : j + 2 < N
    · rw [Nat.mod_eq_of_lt h4, if_neg (by omega)]
      rw [Nat.mod_eq_of_lt (by omega : j + 1 < N - 1), hsIdx, if_neg (by omega)]
    · have hje : j + 2 = N := by omega
      rw [hje, Nat.mod_self]
      have hje1 : j + 1 = N - 1 := by omega
      rw [hje1, Nat.mod_self]
      by_cases h5 : u = 0
      · rw [if_pos h5.symm, h5, Nat.zero_add, Nat.mod_eq_of_lt (by omega : 1 < N),
          hsIdx, if_neg (by omega)]
      · rw [if_neg (by omega), hsIdx, if_pos (by omega)]

/-- The first call from the initial cursor returns the smallest healthy index. -/
theorem nextHealthy_zero (N u : Nat) (hN : 2 ≤ N) (_hu : u < N) :
    nextHealthy N u 0 = hsIdx u 0 := by
  rw [nextHealthy, Nat.zero_mod, hsIdx]
  by_cases h : u = 0
  · rw [if_pos h.symm, if_neg (by omega), Nat.zero_add, Nat.mod_eq_of_lt (by omega : 1 < N)]
  · rw [if_neg (fun he => h he.symm), if_pos (by omega)]

/-- Over `unhealthyAt N u`, starting one past the j-th healthy index, the k-th
successive call returns the (j+1+k mod N-1)-th healthy index. -/
theorem rrCallSeq_oneUnhealthy_aux (N u : Nat) (hN : 2 ≤ N) (hu : u < N)
    (k : Nat) : ∀ j, j < N - 1 →
    rrCallSeq (unhealthyAt N u) (N + 1) k (hsIdx u j + 1) =
      some (some (hsIdx u ((j + 1 + k) % (N - 1))),
        hsIdx u ((j + 1 + k) % (N - 1)) + 1) := by
  have hM : 0 < N - 1 := by omega
  induction k with
  | zero =>
    intro j hj
    have hcb : hsIdx u j + 1 ≤ N := by
      rw [hsIdx]; split <;> omega
    rw [rrCallSeq, rrCall_oneUnhealthy N u _ hN hu hcb, nextHealthy_hsIdx N u j hN hu hj]
  | succ n ih =>
    intro j hj
    have hcb : hsIdx u j + 1 ≤ N := by
      rw [hsIdx]; split <;> omega
    rw [rrCallSeq, rrCall_oneUnhealthy N u _ hN hu hcb, Option.some_bind]
    rw [nextHealthy_hsIdx N u j hN hu hj]
    rw [ih ((j + 1) % (N - 1)) (Nat.mod_lt _ hM)]
    have harith : ((j + 1) % (N - 1) + 1 + n) % (N - 1) = (j + 1 + (n + 1)) % (N - 1) := by
      have h2 : (j + 1) % (N - 1) ≡ j + 1 [MOD N - 1] := Nat.mod_modEq _ _
      calc ((j + 1) % (N - 1) + 1 + n) % (N - 1)
          = (j + 1 + 1 + n) % (N - 1) := (h2.add_right 1).add_right n
        _ = (j + 1 + (n + 1)) % (N - 1) := by ring_nf
    rw [harith]

/-- Over `unhealthyAt N u` with `N ≥ 2`, the k-th call from the initial
cursor 0 returns the (k mod N-1)-th healthy index. -/
theorem rrCallSeq_oneUnhealthy (N u k : Nat) (hN : 2 ≤ N) (hu : u < N) :
    rrCallSeq (unhealthyAt N u) (N + 1) k 0 =
      some (some (hsIdx u (k % (N - 1))), hsIdx u (k % (N - 1)) + 1) := by
  have hM : 0 < N - 1 := by omega
  cases k with
  | zero =>
    rw [rrCallSeq, rrCall_oneUnhealthy N u 0 hN hu (by omega), nextHealthy_zero N u hN hu]
    rw [Nat.zero_mod]
  | succ n =>
    rw [rrCallSeq, rrCall_oneUnhealthy N u 0 hN hu (by omega), Option.some_bind]
    rw [nextHealthy_zero N u hN hu]
    rw [rrCallSeq_oneUnhealthy_aux N u hN hu n 0 (by omega)]
    have harith : (0 + 1 + n) % (N - 1) = (n + 1) % (N - 1) := by ring_nf
    rw [harith]

/-- The healthy indices of `unhealthyAt N u` listed in sequence order are
exactly `hsIdx u 0, hsIdx u 1, ...`: reading position `j` of the filtered
index list gives `hsIdx u j`. -/
theorem filter_range_ne_getD (N u j : Nat) (hu : u < N) (hj : j < N - 1) :
    ((List.range N).filter (fun i => i != u)).getD j 0 = hsIdx u j := by
  have hsplit : (List.range N).filter (fun i => i != u) =
      List.range u ++ (List.range (N - 1 - u)).map (fun i => u + 1 + i) := by
    have hN : N = (u + 1) + (N - 1 - u) := by omega
    rw [hN, List.range_add, List.filter_append, List.range_succ, List.filter_append]
    have hfu : (List.range u).filter (fun i => i != u) = List.range u := by
      apply List.filter_eq_self.mpr
      intro a ha
      exact bne_iff_ne.mpr (by have := List.mem_range.mp ha; omega)
    have hfs : ([u].filter (fun i => i != u)) = [] := by simp
    have hfm : ((List.range (N - 1 - u)).map (fun x => u + 1 + x)).filter
        (fun i => i != u) = (List.range (N - 1 - u)).map (fun x => u + 1 + x) := by
      apply List.filter_eq_self.mpr
      intro a ha
      obtain ⟨x, hx, rfl⟩ := List.mem_map.mp ha
      exact bne_iff_ne.mpr (by omega)
    rw [hfu, hfs, hfm, List.append_nil]
    have harg : u + 1 + (N - 1 - u) - 1 - u = N - 1 - u := by omega
    rw [harg]
  rw [hsplit]
  by_cases h : j < u
  · rw [List.getD_append _ _ _ _ (by simpa using h), List.getD_eq_getElem?_getD,
      List.getElem?_range h, Option.getD_some, hsIdx, if_pos h]
  · have hlen : (List.range u).length ≤ j := by simpa using Nat.le_of_not_lt h
    rw [List.getD_append_right _ _ _ _ hlen, List.getD_eq_getElem?_getD, List.getElem?_map]
    have hx : j - (List.range u).length < N - 1 - u := by
      simp only [List.length_range]; omega
    rw [List.getElem?_range hx, Option.map_some', Option.getD_some, hsIdx, if_neg h]
    simp only [List.length_range]; omega

/-- C2: the claim states that for every inventory (including the empty one
and all-unhealthy ones) and every cursor state, roundRobin.Backend()
terminates, returning null when no backend is healthy.  The code violates
this: over a one-backend inventory whose backend is unhealthy, a freshly
constructed balancer (cursor 0) never terminates, because the running cursor
only takes values from 1 to the inventory size and can never equal the saved
entry value 0, so the full-cycle exit test never fires.  This theorem
evaluates the embedded loop at that failing input: no amount of fuel makes
the call finish.  (For the empty inventory the Go code additionally panics
on the modulo-by-zero `r.next % len` before any comparison.) -/
theorem C2_roundRobin_termination_bug : rrDiverges [false] 0 :=
  fun fuel => rrLoop_single_false fuel 0

/-- C3 counterexample: the claim quantifies over inventories with N ≥ 1
backends of which exactly one is unhealthy.  At N = 1 with its single
backend (index 0) unhealthy, a Backend() call from the initial cursor never
completes at any fuel, so the claimed graceful cycling of the remaining
N - 1 backends (and the null return the cited spec sentence promises) never
happens - the call does not return at all. -/
theorem C3_counterexample : rrDiverges (unhealthyAt 1 0) 0 := by
  intro fuel
  have h : unhealthyAt 1 0 = [false] := rfl
  rw [rrCall, h]
  exact rrLoop_single_false fuel 0

/-- C3 (amended): for every inventory with N ≥ 1 backends all healthy,
round-robin Backend() called repeatedly from the initial cursor returns
backend k mod N on the k-th call, i.e. each backend exactly once per group of
N calls, in sequence order, with period N; and for every inventory with
N ≥ 2 backends of which exactly the one at index u is unhealthy, the k-th
call returns the (k mod N-1)-th healthy index (the unhealthy backend is
never returned and the remaining N - 1 backends are cycled in sequence
order with period N - 1).  The amendment restricts the one-unhealthy part to
N ≥ 2: at N = 1 the call never returns (see the counterexample). -/
theorem C3_roundRobin_cycle :
    (∀ (healthy : List Bool) (k : Nat), healthy ≠ [] → (∀ b ∈ healthy, b = true) →
        rrCallSeq healthy (healthy.length + 1) k 0 =
          some (some (k % healthy.length), k % healthy.length + 1)) ∧
    (∀ (N u k : Nat), 2 ≤ N → u < N →
        rrCallSeq (unhealthyAt N u) (N + 1) k 0 =
          some (some (hsIdx u (k % (N - 1))), hsIdx u (k % (N - 1)) + 1) ∧
        hsIdx u (k % (N - 1)) ≠ u ∧
        ((List.range N).filter (fun i => i != u)).getD (k % (N - 1)) 0 =
          hsIdx u (k % (N - 1))) := by
  constructor
  · intro healthy k hne hall
    simpa using rrCallSeq_all_healthy healthy hne hall k 0
  · intro N u k hN hu
    refine ⟨rrCallSeq_oneUnhealthy N u k hN hu, ?_, ?_⟩
    · rw [hsIdx]; split <;> omega
    · exact filter_range_ne_getD N u _ hu (Nat.mod_lt _ (by omega))

/-- C3 witness: the amended theorem evaluated at concrete inventories: over
three healthy backends the 7th call (0-indexed) returns backend 1 and leaves
cursor 2; over four backends with backend 2 unhealthy the 5th call returns
backend 3 and never backend 2. -/
theorem C3_roundRobin_cycle_witness :
    (([true, true, true] : List Bool) ≠ [] ∧ (∀ b ∈ [true, true, true], b = true) ∧
      rrCallSeq [true, true, true] 4 7 0 = some (some 1, 2)) ∧
    (2 ≤ 4 ∧ (2 : Nat) < 4 ∧
      rrCallSeq (unhealthyAt 4 2) 5 5 0 = some (some 3, 4) ∧
      hsIdx 2 (5 % 3) ≠ 2) := by
  refine ⟨⟨by decide, by decide, ?_⟩, by decide, by decide, ?_, ?_⟩
  · have h := C3_roundRobin_cycle.1 [true, true, true] 7 (by decide) (by decide)
    simpa using h
  · have h := (C3_roundRobin_cycle.2 4 2 5 (by decide) (by decide)).1
    simpa using h
  · exact (C3_roundRobin_cycle.2 4 2 5 (by decide) (by decide)).2.1

/-! ## Least-connections load balancer (src/server/loadbalancing.go, leastConn.Backend) -/

/-- Call-time view of one backend as read by `leastConn.Backend`: its
`Healthy()` flag and its `Connections()` in-flight gauge. -/
structure LCBackend where
  healthy : Bool
  conns : Nat
deriving DecidableEq

/-- `math.MaxInt32`, the initial value of `lowest` in `leastConn.Backend`. -/
def maxInt32 : Nat := 2147483647

/-- The scan loop of `leastConn.Backend`: runs over the backends in sequence
order (`i` is the inventory index of the head of `bes`), skips unhealthy
backends, and replaces `(best, lowest)` whenever a healthy backend has
strictly fewer connections than the lowest seen so far. -/
def leastConnGo : List LCBackend → Nat → Option Nat → Nat → Option Nat × Nat
  | [], _, best, lowest => (best, lowest)
  | be :: rest, i, best, lowest =>
    if be.healthy = true ∧ be.conns < lowest then
      leastConnGo rest (i + 1) (some i) be.conns
    else
      leastConnGo rest (i + 1) best lowest

/-- `leastConn.Backend`: scan with `best = nil`, `lowest = math.MaxInt32`,
then return nil exactly when `lowest` is still `math.MaxInt32`. -/
def leastConnBackend (bes : List LCBackend) : Option Nat :=
  if (leastConnGo bes 0 none maxInt32).2 = maxInt32 then none
  else (leastConnGo bes 0 none maxInt32).1

/-- Invariant characterisation of the least-connections scan: the final
`lowest` never exceeds the initial one and is a lower bound on every healthy
connection count in the scanned suffix; and either nothing was below the
initial `lowest` (then `(best, lowest)` is unchanged), or `best` points at
the first healthy backend attaining the strictly smaller final `lowest`. -/
theorem leastConnGo_spec (bes : List LCBackend) :
    ∀ (i : Nat) (best : Option Nat) (lowest : Nat),
      (leastConnGo bes i best lowest).2 ≤ lowest ∧
      (∀ (k : Nat) (bk : LCBackend), bes[k]? = some bk → bk.healthy = true →
        (leastConnGo bes i best lowest).2 ≤ bk.conns) ∧
      (((leastConnGo bes i best lowest).2 = lowest ∧
          (leastConnGo bes i best lowest).1 = best) ∨
        ((leastConnGo bes i best lowest).2 < lowest ∧
          ∃ j bj, bes[j]? = some bj ∧
            (leastConnGo bes i best lowest).1 = some (i + j) ∧
            bj.healthy = true ∧ bj.conns = (leastConnGo bes i best lowest).2 ∧
            ∀ (k : Nat) (bk : LCBackend), k < j → bes[k]? = some bk → bk.healthy = true →
              (leastConnGo bes i best lowest).2 < bk.conns)) := by
  induction bes with
  | nil =>
    intro i best lowest
    refine ⟨le_refl _, ?_, Or.inl ⟨rfl, rfl⟩⟩
    intro k bk hk
    simp at hk
  | cons be rest ih =>
    intro i best lowest
    by_cases hcond : be.healthy = true ∧ be.conns < lowest
    · rw [leastConnGo, if_pos hcond]
      obtain ⟨ih1, ih2, ih3⟩ := ih (i + 1) (some i) be.conns
      refine ⟨le_trans ih1 (le_of_lt hcond.2), ?_, ?_⟩
      · intro k bk hk hh
        cases k with
        | zero =>
          simp only [List.getElem?_cons_zero, Option.some.injEq] at hk
          rw [← hk]
          exact ih1
        | succ k2 =>
          rw [List.getElem?_cons_succ] at hk
          exact ih2 k2 bk hk hh
      · right
        rcases ih3 with ⟨heq, hbest⟩ | ⟨hlt, j, bj, hj, hbst, hh, hcn, hmin⟩
        · refine ⟨lt_of_le_of_lt (le_of_eq heq) hcond.2, 0, be, ?_, ?_, hcond.1, ?_, ?_⟩
          · rw [List.getElem?_cons_zero]
          · rw [hbest, Nat.add_zero]
          · rw [heq]
          · intro k bk hklt
            omega
        · refine ⟨lt_trans hlt hcond.2, j + 1, bj, ?_, ?_, hh, hcn, ?_⟩
          · rw [List.getElem?_cons_succ]
            exact hj
          · rw [hbst]
            congr 1
            omega
          · intro k bk hklt hk hhk
            cases k with
            | zero =>
              simp only [List.getElem?_cons_zero, Option.some.injEq] at hk
              rw [← hk]
              exact hlt
            | succ k2 =>
              rw [List.getElem?_cons_succ] at hk
              exact hmin k2 bk (by omega) hk hhk
    · rw [leastConnGo, if_neg hcond]
      obtain ⟨ih1, ih2, ih3⟩ := ih (i + 1) best lowest
      refine ⟨ih1, ?_, ?_⟩
      · intro k bk hk hh
        cases k with
        | zero =>
          simp only [List.getElem?_cons_zero, Option.some.injEq] at hk
          rw [← hk]
          have hge : lowest ≤ be.conns := by
            rcases Nat.lt_or_ge be.conns lowest with hlt | hge
            · exact absurd ⟨by rw [hk]; exact hh, hlt⟩ hcond
            · exact hge
          exact le_trans ih1 hge
        | succ k2 =>
          rw [List.getElem?_cons_succ] at hk
          exact ih2 k2 bk hk hh
      · rcases ih3 with ⟨heq, hbest⟩ | ⟨hlt, j, bj, hj, hbst, hh, hcn, hmin⟩
        · exact Or.inl ⟨heq, hbest⟩
        · refine Or.inr ⟨hlt, j + 1, bj, ?_, ?_, hh, hcn, ?_⟩
          · rw [List.getElem?_cons_succ]
            exact hj
          · rw [hbst]
            congr 1
            omega
          · intro k bk hklt hk hhk
            cases k with
            | zero =>
              simp only [List.getElem?_cons_zero, Option.some.injEq] at hk
              have hge : lowest ≤ be.conns := by
                rcases Nat.lt_or_ge be.conns lowest with hlt2 | hge
                · exact absurd ⟨by rw [hk]; exact hhk, hlt2⟩ hcond
                · exact hge
              rw [← hk]
              exact lt_of_lt_of_le hlt hge
            | succ k2 =>
              rw [List.getElem?_cons_succ] at hk
              exact hmin k2 bk (by omega) hk hhk

/-- C4 counterexample: the claim states that least-connections returns null
exactly when no healthy backend exists.  A single healthy backend whose
in-flight count equals math.MaxInt32 refutes it: the scan requires a count
strictly below the math.MaxInt32 sentinel, so the healthy backend is never
recorded and nil is returned although a healthy backend exists. -/
theorem C4_counterexample :
    (LCBackend.mk true maxInt32).healthy = true ∧
    leastConnBackend [LCBackend.mk true maxInt32] = none := by
  exact ⟨rfl, by decide⟩

/-- C4 (amended): least-connections returns a healthy backend whose in-flight
count is less than or equal to that of every other healthy backend, ties
broken in favour of the earliest position, provided some healthy backend has
fewer than math.MaxInt32 = 2147483647 in-flight connections; it returns the
null result exactly when no healthy backend with an in-flight count below
math.MaxInt32 exists (the sentinel makes healthy backends at or above that
count unselectable). -/
theorem C4_leastConn_selection (bes : List LCBackend) :
    ((∀ (k : Nat) (bk : LCBackend), bes[k]? = some bk → bk.healthy = true →
        maxInt32 ≤ bk.conns) → leastConnBackend bes = none) ∧
    (∀ (i : Nat) (bi : LCBackend), bes[i]? = some bi → bi.healthy = true →
      bi.conns < maxInt32 →
      ∃ (j : Nat) (bj : LCBackend), leastConnBackend bes = some j ∧
        bes[j]? = some bj ∧ bj.healthy = true ∧
        (∀ (k : Nat) (bk : LCBackend), bes[k]? = some bk → bk.healthy = true →
          bj.conns ≤ bk.conns) ∧
        (∀ (k : Nat) (bk : LCBackend), k < j → bes[k]? = some bk →
          bk.healthy = true → bj.conns < bk.conns)) := by
  obtain ⟨h1, h2, h3⟩ := leastConnGo_spec bes 0 none maxInt32
  constructor
  · intro hall
    rcases h3 with ⟨heq, _⟩ | ⟨hlt, j, bj, hj, _, hh, hcn, _⟩
    · rw [leastConnBackend, if_pos heq]
    · exact absurd (hcn ▸ hall j bj hj hh) (by omega)
  · intro i bi hi hh hlt
    have hlow : (leastConnGo bes 0 none maxInt32).2 < maxInt32 :=
      lt_of_le_of_lt (h2 i bi hi hh) hlt
    have hne : (leastConnGo bes 0 none maxInt32).2 ≠ maxInt32 := by omega
    rcases h3 with ⟨heq, _⟩ | ⟨_, j, bj, hj, hbst, hhj, hcn, hmin⟩
    · exact absurd heq hne
    · refine ⟨j, bj, ?_, hj, hhj, ?_, ?_⟩
      · rw [leastConnBackend, if_neg hne, hbst, Nat.zero_add]
      · intro k bk hk hhk
        rw [hcn]
        exact h2 k bk hk hhk
      · intro k bk hklt hk hhk
        rw [hcn]
        exact hmin k bk hklt hk hhk

/-- C4 witness: the amended theorem evaluated on the inventory
`[(healthy,5), (unhealthy,0), (healthy,3), (healthy,3)]`: backend 2 is
healthy with 3 < math.MaxInt32 connections, and the returned backend is
index 2 (tie with index 3 broken towards the earlier position); and on
`[(unhealthy,0)]` every healthy backend vacuously sits at or above the
sentinel, so nil is returned. -/
theorem C4_leastConn_selection_witness :
    (([⟨true, 5⟩, ⟨false, 0⟩, ⟨true, 3⟩, ⟨true, 3⟩] : List LCBackend)[2]? =
        some ⟨true, 3⟩ ∧
      (LCBackend.mk true 3).healthy = true ∧ (3 : Nat) < maxInt32 ∧
      (∃ (j : Nat) (bj : LCBackend),
        leastConnBackend [⟨true, 5⟩, ⟨false, 0⟩, ⟨true, 3⟩, ⟨true, 3⟩] = some j ∧
        ([⟨true, 5⟩, ⟨false, 0⟩, ⟨true, 3⟩, ⟨true, 3⟩] : List LCBackend)[j]? = some bj ∧
        bj.healthy = true ∧
        (∀ (k : Nat) (bk : LCBackend),
          ([⟨true, 5⟩, ⟨false, 0⟩, ⟨true, 3⟩, ⟨true, 3⟩] : List LCBackend)[k]? = some bk →
          bk.healthy = true → bj.conns ≤ bk.conns) ∧
        (∀ (k : Nat) (bk : LCBackend), k < j →
          ([⟨true, 5⟩, ⟨false, 0⟩, ⟨true, 3⟩, ⟨true, 3⟩] : List LCBackend)[k]? = some bk →
          bk.healthy = true → bj.conns < bk.conns))) ∧
    ((∀ (k : Nat) (bk : LCBackend), ([⟨false, 0⟩] : List LCBackend)[k]? = some bk →
        bk.healthy = true → maxInt32 ≤ bk.conns) ∧
      leastConnBackend [⟨false, 0⟩] = none) := by
  have hvac : ∀ (k : Nat) (bk : LCBackend), ([⟨false, 0⟩] : List LCBackend)[k]? = some bk →
      bk.healthy = true → maxInt32 ≤ bk.conns := by
    intro k bk hk hh
    cases k with
    | zero =>
      simp only [List.getElem?_cons_zero, Option.some.injEq] at hk
      rw [← hk] at hh
      exact absurd hh (by decide)
    | succ k2 => simp at hk
  refine ⟨⟨by decide, rfl, by decide, ?_⟩, hvac, (C4_leastConn_selection [⟨false, 0⟩]).1 hvac⟩
  exact (C4_leastConn_selection _).2 2 ⟨true, 3⟩ (by decide) rfl (by decide)

/-! ## Backend health monitor (src/server/backend.go, startMonitor and healthCheck) -/

/-- The health-relevant portion of a backend `Stats` value: the `Healthy`
flag and the `healthFailures` counter. -/
structure HealthState where
  healthy : Bool
  healthFailures : Nat
deriving DecidableEq

/-- Classification of one probe outcome: `none` models a network error from
`healthClient.Do`, `some code` an HTTP response with that status code; the
probe fails when there is a network error or the status is at least 500. -/
def probeFails (probe : Option Nat) : Bool :=
  match probe with
  | none => true
  | some code => decide (500 ≤ code)

/-- The counter update of `backend.healthCheck` for a non-empty HealthURL:
a failed probe increments `healthFailures`, a successful one resets it to 0. -/
def healthCheckUpdate (s : HealthState) (probe : Option Nat) : HealthState :=
  if probeFails probe then ⟨s.healthy, s.healthFailures + 1⟩
  else ⟨s.healthy, 0⟩

/-- `backend.healthCheck`: with an empty HealthURL the Healthy flag is forced
true and no request is made; otherwise the probe runs and the failure counter
is updated.  The boolean records whether a network request was made. -/
def healthCheck (healthURL : String) (s : HealthState) (probe : Option Nat) :
    HealthState × Bool :=
  if healthURL = "" then (⟨true, s.healthFailures⟩, false)
  else (healthCheckUpdate s probe, true)

/-- First transition in the monitor loop: a healthy backend with more than 5
failures is marked unhealthy. -/
def monitorTrans (s : HealthState) : HealthState :=
  if s.healthy = true ∧ 5 < s.healthFailures then ⟨false, s.healthFailures⟩ else s

/-- Second transition in the monitor loop: an unhealthy backend with 0
failures is marked healthy. -/
def monitorTrans2 (s : HealthState) : HealthState :=
  if s.healthy = false ∧ s.healthFailures = 0 then ⟨true, s.healthFailures⟩ else s

/-- One cycle of the monitor loop in `backend.startMonitor` (health portion):
run `healthCheck`, then the two transitions in code order. -/
def monitorCycle (healthURL : String) (s : HealthState) (probe : Option Nat) :
    HealthState × Bool :=
  (monitorTrans2 (monitorTrans (healthCheck healthURL s probe).1),
    (healthCheck healthURL s probe).2)

/-- Iterated monitor cycles over a list of probe outcomes. -/
def monitorRun (healthURL : String) (s : HealthState) (probes : List (Option Nat)) :
    HealthState :=
  probes.foldl (fun st p => (monitorCycle healthURL st p).1) s

theorem monitorTrans_true_le (f : Nat) (hf : f ≤ 5) :
    monitorTrans ⟨true, f⟩ = ⟨true, f⟩ := by
  rw [monitorTrans, if_neg]
  intro hc
  have h5 : 5 < f := hc.2
  omega

theorem monitorTrans_true_gt (f : Nat) (hf : 5 < f) :
    monitorTrans ⟨true, f⟩ = ⟨false, f⟩ := by
  rw [monitorTrans, if_pos ⟨rfl, hf⟩]

theorem monitorTrans_false (f : Nat) : monitorTrans ⟨false, f⟩ = ⟨false, f⟩ := by
  rw [monitorTrans, if_neg]
  intro hc
  exact Bool.noConfusion (show false = true from hc.1)

theorem monitorTrans2_true (f : Nat) : monitorTrans2 ⟨true, f⟩ = ⟨true, f⟩ := by
  rw [monitorTrans2, if_neg]
  intro hc
  exact Bool.noConfusion (show true = false from hc.1)

theorem monitorTrans2_false_zero : monitorTrans2 ⟨false, 0⟩ = ⟨true, 0⟩ := by
  rw [monitorTrans2, if_pos ⟨rfl, rfl⟩]

theorem monitorTrans2_false_pos (f : Nat) (hf : f ≠ 0) :
    monitorTrans2 ⟨false, f⟩ = ⟨false, f⟩ := by
  rw [monitorTrans2, if_neg]
  intro hc
  exact hf hc.2

/-- A healthy backend stays healthy while the consecutive failure count stays
at most 5; the counter just accumulates the failed probes. -/
theorem monitorRun_tolerates_five (url : String) (probes : List (Option Nat)) :
    ∀ s : HealthState, url ≠ "" → s.healthy = true →
    (∀ p ∈ probes, probeFails p = true) →
    s.healthFailures + probes.length ≤ 5 →
    monitorRun url s probes = ⟨true, s.healthFailures + probes.length⟩ := by
  induction probes with
  | nil =>
    intro s hurl hh _ _
    obtain ⟨hb, f⟩ := s
    cases hh
    rfl
  | cons p rest ih =>
    intro s hurl hh hall hlen
    obtain ⟨hb, f⟩ := s
    cases hh
    have hf : f + (rest.length + 1) ≤ 5 := by
      simpa using hlen
    have hstep : (monitorCycle url ⟨true, f⟩ p).1 = ⟨true, f + 1⟩ := by
      have h1 : healthCheck url ⟨true, f⟩ p = (⟨true, f + 1⟩, true) := by
        rw [healthCheck, if_neg hurl, healthCheckUpdate, if_pos (hall p (by simp))]
      rw [monitorCycle, h1]
      show monitorTrans2 (monitorTrans ⟨true, f + 1⟩) = ⟨true, f + 1⟩
      rw [monitorTrans_true_le (f + 1) (by omega), monitorTrans2_true]
    rw [monitorRun, List.foldl_cons, hstep]
    have hrest := ih ⟨true, f + 1⟩ hurl rfl (fun q hq => hall q (by simp [hq]))
      (by simpa using by omega : (⟨true, f + 1⟩ : HealthState).healthFailures + rest.length ≤ 5)
    rw [monitorRun] at hrest
    rw [hrest]
    have harith : (⟨true, f + 1⟩ : HealthState).healthFailures + rest.length
        = f + (p :: rest).length := by
      show f + 1 + rest.length = f + (p :: rest).length
      simp only [List.length_cons]
      omega
    rw [harith]

/-- From a clean healthy state, the 6th consecutive failed probe flips the
backend to unhealthy with a failure count of 6. -/
theorem monitorRun_six_fails (url : String) (s : HealthState)
    (probes : List (Option Nat)) (hurl : url ≠ "") (hh : s.healthy = true)
    (hf0 : s.healthFailures = 0) (hlen : probes.length = 6)
    (hall : ∀ p ∈ probes, probeFails p = true) :
    monitorRun url s probes = ⟨false, 6⟩ := by
  obtain ⟨hb, f⟩ := s
  cases hh
  have hf : f = 0 := hf0
  cases hf
  have hne : probes ≠ [] := by
    intro he
    rw [he] at hlen
    simp at hlen
  obtain ⟨l, p, hsplit⟩ : ∃ l p, probes = l ++ [p] :=
    ⟨probes.dropLast, probes.getLast hne, (List.dropLast_append_getLast hne).symm⟩
  subst hsplit
  have hl5 : l.length = 5 := by
    simp only [List.length_append, List.length_cons, List.length_nil] at hlen
    omega
  have hfirst : monitorRun url ⟨true, 0⟩ l = ⟨true, 5⟩ := by
    have := monitorRun_tolerates_five url l ⟨true, 0⟩ hurl rfl
      (fun q hq => hall q (by simp [hq])) (by simp [hl5])
    simpa [hl5] using this
  rw [monitorRun, List.foldl_append]
  rw [monitorRun] at hfirst
  rw [hfirst, List.foldl_cons, List.foldl_nil]
  have h1 : healthCheck url ⟨true, 5⟩ p = (⟨true, 6⟩, true) := by
    rw [healthCheck, if_neg hurl, healthCheckUpdate, if_pos (hall p (by simp))]
  rw [monitorCycle, h1]
  show monitorTrans2 (monitorTrans ⟨true, 6⟩) = ⟨false, 6⟩
  rw [monitorTrans_true_gt 6 (by omega), monitorTrans2_false_pos 6 (by omega)]

/-- An unhealthy backend becomes healthy again on the first cycle whose probe
succeeds, with the failure counter reset. -/
theorem monitorCycle_recovers (url : String) (s : HealthState) (p : Option Nat)
    (hurl : url ≠ "") (hh : s.healthy = false) (hp : probeFails p = false) :
    (monitorCycle url s p).1 = ⟨true, 0⟩ := by
  obtain ⟨hb, f⟩ := s
  cases hh
  have h1 : healthCheck url ⟨false, f⟩ p = (⟨false, 0⟩, true) := by
    rw [healthCheck, if_neg hurl, healthCheckUpdate, if_neg (by simp [hp])]
  rw [monitorCycle, h1]
  show monitorTrans2 (monitorTrans ⟨false, 0⟩) = ⟨true, 0⟩
  rw [monitorTrans_false, monitorTrans2_false_zero]

/-- C5: under the per-second monitor step (probe classification: increment
healthFailures on network error or HTTP status at least 500, reset to 0
otherwise, then the two transition rules), a healthy backend never becomes
unhealthy before the 6th consecutive failed probe - any run of failed probes
that keeps the accumulated count at or below 5 leaves it healthy - it flips
to unhealthy exactly on the 6th consecutive failure from a clean state, and
an unhealthy backend becomes healthy again on the first cycle whose probe
succeeds. -/
theorem C5_health_flap_policy :
    (∀ (url : String) (s : HealthState) (probes : List (Option Nat)),
        url ≠ "" → s.healthy = true → (∀ p ∈ probes, probeFails p = true) →
        s.healthFailures + probes.length ≤ 5 →
        (monitorRun url s probes).healthy = true) ∧
    (∀ (url : String) (s : HealthState) (probes : List (Option Nat)),
        url ≠ "" → s.healthy = true → s.healthFailures = 0 →
        probes.length = 6 → (∀ p ∈ probes, probeFails p = true) →
        (monitorRun url s probes).healthy = false) ∧
    (∀ (url : String) (s : HealthState) (p : Option Nat),
        url ≠ "" → s.healthy = false → probeFails p = false →
        ((monitorCycle url s p).1).healthy = true) := by
  refine ⟨?_, ?_, ?_⟩
  · intro url s probes hurl hh hall hlen
    rw [monitorRun_tolerates_five url probes s hurl hh hall hlen]
  · intro url s probes hurl hh hf0 hlen hall
    rw [monitorRun_six_fails url s probes hurl hh hf0 hlen hall]
  · intro url s p hurl hh hp
    rw [monitorCycle_recovers url s p hurl hh hp]

/-- C5 witness: the theorem evaluated concretely: from a clean healthy state,
five failed probes (network errors and 5xx statuses) leave the backend
healthy; six failed probes mark it unhealthy; and one successful probe (HTTP
200) recovers an unhealthy backend at once. -/
theorem C5_health_flap_policy_witness :
    ("http://b/health" ≠ "" ∧ (⟨true, 0⟩ : HealthState).healthy = true ∧
      (∀ p ∈ ([none, some 500, none, some 503, none] : List (Option Nat)),
        probeFails p = true) ∧
      (⟨true, 0⟩ : HealthState).healthFailures +
        ([none, some 500, none, some 503, none] : List (Option Nat)).length ≤ 5 ∧
      (monitorRun "http://b/health" ⟨true, 0⟩
        [none, some 500, none, some 503, none]).healthy = true) ∧
    ((monitorRun "http://b/health" ⟨true, 0⟩
        (List.replicate 6 none)).healthy = false) ∧
    ((monitorCycle "http://b/health" ⟨false, 3⟩ (some 200)).1.healthy = true) := by
  refine ⟨⟨by decide, rfl, by decide, by decide,
      C5_health_flap_policy.1 _ _ _ (by decide) rfl (by decide) (by decide)⟩,
    C5_health_flap_policy.2.1 _ _ _ (by decide) rfl rfl (by decide) (by decide),
    C5_health_flap_policy.2.2 _ _ _ (by decide) rfl (by decide)⟩

/-! ## Backend construction (src/server/backend.go, newBackend) -/

/-- The field of `BackendConfig` that `newBackend` consults when deciding
whether to start the monitor goroutine. -/
structure BackendConfigM where
  disableHealth : Bool
deriving DecidableEq

/-- Construction-time observable state of a generic backend as set up by
`newBackend`: the stored hosts, the initial Stats health fields, and whether
the monitor goroutine was started. -/
structure NewBackend where
  serverHost : String
  healthURL : String
  statsHealthy : Bool
  statsFailures : Nat
  monitorStarted : Bool
deriving DecidableEq

/-- `newBackend` (src/server/backend.go lines 42-81): `Stats.Healthy` starts
true exactly when the HealthURL is empty (Go zero value false otherwise),
`healthFailures` starts at 0, and the monitor goroutine is started whenever
`DisableHealth` is unset - the HealthURL plays no part in that decision. -/
def newBackend (bec : BackendConfigM) (serverHost healthURL : String) : NewBackend :=
  { serverHost := serverHost
  , healthURL := healthURL
  , statsHealthy := healthURL == ""
  , statsFailures := 0
  , monitorStarted := !bec.disableHealth }

/-- C6 counterexample: the claim states that no monitor task is started for a
backend constructed with an empty HealthURL.  In `newBackend` the monitor
launch is gated only on `DisableHealth`: with health checks enabled and an
empty HealthURL the monitor goroutine is started anyway. -/
theorem C6_counterexample :
    (newBackend ⟨false⟩ "192.168.0.1:8080" "").healthURL = "" ∧
    (newBackend ⟨false⟩ "192.168.0.1:8080" "").monitorStarted = true :=
  ⟨rfl, rfl⟩

/-- C6 (amended): for every backend constructed with an empty HealthURL, the
Healthy flag is true at construction and is forced true on every monitor
cycle without any network call being made; the monitor task is nevertheless
started unless health checks are disabled in the backend configuration -
an empty HealthURL does not suppress the monitor, only its network call. -/
theorem C6_empty_healthURL (bec : BackendConfigM) (host : String)
    (s : HealthState) (p : Option Nat) :
    (newBackend bec host "").statsHealthy = true ∧
    (newBackend bec host "").monitorStarted = !bec.disableHealth ∧
    (s.healthFailures = 0 →
      (monitorCycle "" s p).1 = ⟨true, 0⟩ ∧ (monitorCycle "" s p).2 = false) := by
  refine ⟨rfl, rfl, ?_⟩
  intro hf0
  obtain ⟨hb, f⟩ := s
  have hf : f = 0 := hf0
  cases hf
  have h1 : healthCheck "" ⟨hb, 0⟩ p = (⟨true, 0⟩, false) := by
    rw [healthCheck, if_pos rfl]
  constructor
  · rw [monitorCycle, h1]
    show monitorTrans2 (monitorTrans ⟨true, 0⟩) = ⟨true, 0⟩
    rw [monitorTrans_true_le 0 (by omega), monitorTrans2_true]
  · rw [monitorCycle, h1]

/-- C6 witness: the amended theorem evaluated at a backend with health checks
enabled and an empty HealthURL, and a cycle on an unhealthy state with a
clean counter: Healthy is true at construction, the monitor is started, and
the cycle forces Healthy true without a network call. -/
theorem C6_empty_healthURL_witness :
    (⟨false, 0⟩ : HealthState).healthFailures = 0 ∧
    (newBackend ⟨false⟩ "10.0.0.1:80" "").statsHealthy = true ∧
    (newBackend ⟨false⟩ "10.0.0.1:80" "").monitorStarted = !(false : Bool) ∧
    (monitorCycle "" ⟨false, 0⟩ none).1 = ⟨true, 0⟩ ∧
    (monitorCycle "" ⟨false, 0⟩ none).2 = false := by
  have h := C6_empty_healthURL ⟨false⟩ "10.0.0.1:80" ⟨false, 0⟩ none
  exact ⟨rfl, h.1, h.2.1, (h.2.2 rfl).1, (h.2.2 rfl).2⟩

/-! ## Instrumented transport (src/server/backend.go, statRT.RoundTrip) -/

/-- The counters of `statRT`: the live in-flight gauge `running` and the
per-second window accumulators `requests`, `errors` and `latencySum`
(a Go `time.Duration`, i.e. a signed integer). -/
structure RTStats where
  running : Nat
  requests : Nat
  errors : Nat
  latencySum : Int
deriving DecidableEq

/-- First half of `statRT.RoundTrip`: the request is recorded as running
before dispatch. -/
def roundTripBegin (s : RTStats) : RTStats :=
  { s with running := s.running + 1 }

/-- Second half of `statRT.RoundTrip`, after the inner transport returns.
`elapsed` is the non-negative wall-clock round-trip time of the request; the
code records `dur := start.Sub(time.Now())`, which equals `-(elapsed)`, and
adds that to `latencySum`.  `outcome` is `none` for a transport error and
`some code` for a response with that status code.  The second component is
the value handed back to the caller: `none` when the transport error is
propagated, the response otherwise - also when a status of at least 500 is
counted as an error. -/
def roundTripEnd (s : RTStats) (elapsed : Nat) (outcome : Option Nat) :
    RTStats × Option Nat :=
  match outcome with
  | none =>
    ({ running := s.running - 1, requests := s.requests + 1,
       errors := s.errors + 1,
       latencySum := s.latencySum + (0 - (elapsed : Int)) }, none)
  | some code =>
    if 500 ≤ code then
      ({ running := s.running - 1, requests := s.requests + 1,
         errors := s.errors + 1,
         latencySum := s.latencySum + (0 - (elapsed : Int)) }, some code)
    else
      ({ running := s.running - 1, requests := s.requests + 1,
         errors := s.errors,
         latencySum := s.latencySum + (0 - (elapsed : Int)) }, some code)

/-- A whole `statRT.RoundTrip` call: record as running, dispatch, complete. -/
def roundTrip (s : RTStats) (elapsed : Nat) (outcome : Option Nat) :
    RTStats × Option Nat :=
  roundTripEnd (roundTripBegin s) elapsed outcome

/-- C7: the claim states that the per-window summed round-trip latency
increases by the request's non-negative round-trip duration.  The code
computes `dur := start.Sub(time.Now())` - start minus completion time - and
so adds the NEGATION of the elapsed time: a single 200-status request taking
5 time units from a zeroed window leaves latencySum at -5, i.e. the sum
decreases by the duration (in general it equals the old sum minus the
elapsed time, as the last conjunct shows for every state and outcome).  The
remaining accounting of the claim does hold and is evaluated here too: the
in-flight gauge is incremented before dispatch and restored after
completion, the request count rises by exactly 1, and the error count rises
by exactly 1 for a transport error or a status of at least 500 - the 5xx
response still being returned - and by 0 otherwise. -/
theorem C7_latency_sign_bug :
    roundTrip ⟨0, 0, 0, 0⟩ 5 (some 200) = (⟨0, 1, 0, -5⟩, some 200) ∧
    (roundTripBegin ⟨0, 0, 0, 0⟩).running = 1 ∧
    roundTrip ⟨0, 0, 0, 0⟩ 5 (some 503) = (⟨0, 1, 1, -5⟩, some 503) ∧
    roundTrip ⟨0, 0, 0, 0⟩ 5 none = (⟨0, 1, 1, -5⟩, none) ∧
    (∀ (s : RTStats) (elapsed : Nat) (outcome : Option Nat),
      (roundTrip s elapsed outcome).1.latencySum = s.latencySum - elapsed ∧
      (roundTrip s elapsed outcome).1.requests = s.requests + 1 ∧
      (roundTrip s elapsed outcome).1.running = s.running) := by
  refine ⟨by decide, rfl, by decide, by decide, ?_⟩
  intro s elapsed outcome
  match outcome with
  | none =>
    refine ⟨?_, rfl, ?_⟩
    · show s.latencySum + (0 - (elapsed : Int)) = s.latencySum - elapsed
      omega
    · show s.running + 1 - 1 = s.running
      omega
  | some code =>
    by_cases hc : 500 ≤ code
    · rw [roundTrip, roundTripEnd, if_pos hc]
      refine ⟨?_, rfl, ?_⟩
      · show s.latencySum + (0 - (elapsed : Int)) = s.latencySum - elapsed
        omega
      · show s.running + 1 - 1 = s.running
        omega
    · rw [roundTrip, roundTripEnd, if_neg hc]
      refine ⟨?_, rfl, ?_⟩
      · show s.latencySum + (0 - (elapsed : Int)) = s.latencySum - elapsed
        omega
      · show s.running + 1 - 1 = s.running
        omega

/-! ## Reverse proxy state and configuration reload
(ReverseProxy SetConfig/SetBackends/GetBackend/ServeHTTP and
Server.UpdateConfig from the reverseproxy and config source files) -/

/-- The `Config` fields that the reload path consults: the five immutable
fields checked by `UpdateConfig`, the inventory file path that decides
whether a new load balancer is built, and two representative mutable fields. -/
structure ConfigM where
  bind : String
  https : Bool
  certFile : String
  keyFile : String
  addForwarded : Bool
  watchConfig : Bool
  lbType : String
  inventoryFile : String
deriving DecidableEq

/-- The Go zero value of `Config`, as held by a `ReverseProxy` fresh from
`NewReverseProxy`. -/
def zeroConfig : ConfigM :=
  { bind := "", https := false, certFile := "", keyFile := ""
  , addForwarded := false, watchConfig := false, lbType := ""
  , inventoryFile := "" }

/-- A load balancer object as seen by the proxy: its identity and the value
its `Backend()` method returns at this instant (`none` models the Go nil
backend returned when nothing is healthy). -/
structure LBModel where
  lbId : Nat
  beResult : Option Nat
deriving DecidableEq

/-- The swappable state of a `ReverseProxy`: the balancer reference (`none`
models a nil `LoadBalancer` interface) and the current configuration. -/
structure RPState where
  balancer : Option LBModel
  conf : ConfigM
deriving DecidableEq

/-- `NewReverseProxy`: both fields start at their Go zero values - in
particular the balancer is nil. -/
def NewReverseProxy : RPState :=
  { balancer := none, conf := zeroConfig }

/-- `ReverseProxy.SetConfig`: replaces the configuration only. -/
def SetConfig (h : RPState) (c : ConfigM) : RPState :=
  { h with conf := c }

/-- `ReverseProxy.SetBackends`: closes the previous balancer when there is
one, then installs the new reference (which may be nil).  The second
component lists the identities of the balancers that had `Close()` called on
them by this operation. -/
def SetBackends (h : RPState) (newLB : Option LBModel) : RPState × List Nat :=
  match h.balancer with
  | some old => ({ h with balancer := newLB }, [old.lbId])
  | none => ({ h with balancer := newLB }, [])

/-- `ReverseProxy.GetBackend`: calls `h.balancer.Backend()` without a nil
check.  `none` models the nil-pointer fault of calling a method on a nil
`LoadBalancer` interface; `some r` is the value `Backend()` returns. -/
def GetBackend (h : RPState) : Option (Option Nat) :=
  match h.balancer with
  | none => none
  | some lb => some lb.beResult

/-- Outcome of the backend-selection portion of `ReverseProxy.ServeHTTP`. -/
inductive ServeSelect where
  | fault
  | noBackend503
  | forwarded (b : Nat)
deriving DecidableEq

/-- The backend-selection step of `ServeHTTP`: `GetBackend`, then the 503
branch on a nil backend, else forward to the chosen backend. -/
def serveSelect (h : RPState) : ServeSelect :=
  match GetBackend h with
  | none => .fault
  | some none => .noBackend503
  | some (some b) => .forwarded b

/-- The server state touched by `Server.UpdateConfig`: the live `Config` and
the `ReverseProxy` handler. -/
structure ServerState where
  config : ConfigM
  handler : RPState
deriving DecidableEq

/-- `Server.UpdateConfig`: reject any change to the five immutable fields,
leaving everything untouched (the deferred revert restores `s.Config` on
error).  Otherwise, when the inventory file path changed, read the new
inventory and build a new load balancer - `invRead` stands for the combined
result of `ReadInventory` and `NewLoadBalancer`, which is only consulted in
that branch - and in every success case hand `newLB` (nil when the
inventory file is unchanged) to `SetBackends`, then `SetConfig`, then,
update the live config.  Returns the new server state, the identities of the
balancers closed by the operation, and the error if any. -/
def UpdateConfig (s : ServerState) (new : ConfigM) (invRead : Except String LBModel) :
    ServerState × List Nat × Option String :=
  if s.config.watchConfig ≠ new.watchConfig then
    (s, [], some "cannot modify watch-config while server is running")
  else if s.config.bind ≠ new.bind then
    (s, [], some "cannot modify bind while server is running")
  else if s.config.https ≠ new.https then
    (s, [], some "cannot modify https while server is running")
  else if s.config.certFile ≠ new.certFile then
    (s, [], some "cannot modify tls-certfile while server is running")
  else if s.config.keyFile ≠ new.keyFile then
    (s, [], some "cannot modify tls-keyfile while server is running")
  else
    match (if s.config.inventoryFile ≠ new.inventoryFile
           then some invRead else none) with
    | some (Except.error e) => (s, [], some e)
    | some (Except.ok lb) =>
      ({ config := new
       , handler := SetConfig (SetBackends s.handler (some lb)).1 new },
       (SetBackends s.handler (some lb)).2, none)
    | none =>
      ({ config := new
       , handler := SetConfig (SetBackends s.handler none).1 new },
       (SetBackends s.handler none).2, none)

/-- A running configuration used by the C1 evaluation: bound on port 80 and
pointing at `inventory.toml`. -/
def c1Live : ConfigM :=
  { zeroConfig with bind := ":80", inventoryFile := "inventory.toml" }

/-- The C1 reload configuration: identical to `c1Live` except for the
mutable add-x-forwarded-for toggle; in particular the inventory file path is
unchanged. -/
def c1New : ConfigM :=
  { c1Live with addForwarded := true }

/-- C1: the claim states that a successful reload whose new Config keeps the
same inventory file path leaves the proxy holding the same load balancer
object as before, still open, with only the Config changing.  The code
violates this: `UpdateConfig` calls `s.handler.SetBackends(newLB)`
unconditionally, and `newLB` is only assigned inside the
inventory-file-changed branch, so it is nil whenever the path is unchanged;
`SetBackends` then closes the previously installed balancer and stores the
nil reference.  Evaluated here: a reload changing only add-x-forwarded-for
succeeds (no error), yet the balancer with identity 7 has `Close()` called
on it and the handler is left with no balancer at all. -/
theorem C1_config_only_reload_closes_balancer :
    UpdateConfig
      { config := c1Live
      , handler := { balancer := some ⟨7, some 0⟩, conf := c1Live } }
      c1New (Except.ok ⟨99, some 0⟩) =
    ({ config := c1New
     , handler := { balancer := none, conf := c1New } },
     [7], none) := by
  decide

/-- C8: for every running server state and every new Config that differs
from the live one in the file-watch toggle, bind address, TLS toggle,
certificate file path or key file path, UpdateConfig reports an error and
leaves the server exactly as it was: same live Config, same handler (hence
same balancer and backend set), and no balancer closed. -/
theorem C8_immutable_field_reload_rejected (s : ServerState) (new : ConfigM)
    (invRead : Except String LBModel)
    (hdiff : s.config.watchConfig ≠ new.watchConfig ∨ s.config.bind ≠ new.bind ∨
      s.config.https ≠ new.https ∨ s.config.certFile ≠ new.certFile ∨
      s.config.keyFile ≠ new.keyFile) :
    (UpdateConfig s new invRead).1 = s ∧
    (UpdateConfig s new invRead).2.1 = [] ∧
    (UpdateConfig s new invRead).2.2.isSome = true := by
  rw [UpdateConfig]
  by_cases h1 : s.config.watchConfig ≠ new.watchConfig
  · rw [if_pos h1]
    exact ⟨rfl, rfl, rfl⟩
  · rw [if_neg h1]
    by_cases h2 : s.config.bind ≠ new.bind
    · rw [if_pos h2]
      exact ⟨rfl, rfl, rfl⟩
    · rw [if_neg h2]
      by_cases h3 : s.config.https ≠ new.https
      · rw [if_pos h3]
        exact ⟨rfl, rfl, rfl⟩
      · rw [if_neg h3]
        by_cases h4 : s.config.certFile ≠ new.certFile
        · rw [if_pos h4]
          exact ⟨rfl, rfl, rfl⟩
        · rw [if_neg h4]
          by_cases h5 : s.config.keyFile ≠ new.keyFile
          · rw [if_pos h5]
            exact ⟨rfl, rfl, rfl⟩
          · exact absurd hdiff (by tauto)

/-- C8 witness: a reload that changes the bind address from ":80" to ":8080"
is rejected with an error and leaves the server state - including its
installed balancer - untouched, closing nothing. -/
theorem C8_immutable_field_reload_rejected_witness :
    (c1Live.watchConfig ≠ { c1Live with bind := ":8080" }.watchConfig ∨
      c1Live.bind ≠ { c1Live with bind := ":8080" }.bind ∨
      c1Live.https ≠ { c1Live with bind := ":8080" }.https ∨
      c1Live.certFile ≠ { c1Live with bind := ":8080" }.certFile ∨
      c1Live.keyFile ≠ { c1Live with bind := ":8080" }.keyFile) ∧
    (UpdateConfig
        { config := c1Live
        , handler := { balancer := some ⟨1, none⟩, conf := c1Live } }
        { c1Live with bind := ":8080" } (Except.error "unused")).1 =
      { config := c1Live
      , handler := { balancer := some ⟨1, none⟩, conf := c1Live } } ∧
    (UpdateConfig
        { config := c1Live
        , handler := { balancer := some ⟨1, none⟩, conf := c1Live } }
        { c1Live with bind := ":8080" } (Except.error "unused")).2.1 = [] ∧
    (UpdateConfig
        { config := c1Live
        , handler := { balancer := some ⟨1, none⟩, conf := c1Live } }
        { c1Live with bind := ":8080" } (Except.error "unused")).2.2.isSome = true := by
  refine ⟨by decide, ?_⟩
  exact C8_immutable_field_reload_rejected
    { config := c1Live, handler := { balancer := some ⟨1, none⟩, conf := c1Live } }
    { c1Live with bind := ":8080" } (Except.error "unused") (by decide)

/-- C10: `GetBackend` dispatches to the balancer without a nil check: with a
non-nil balancer it returns exactly what `Backend()` returns; with a nil
balancer - as produced by `NewReverseProxy` before any `SetBackends` call,
or by `SetBackends(nil)` - the call faults on the nil dereference instead of
returning a nil backend; hence the 503 no-backend branch of request handling
is taken exactly when a non-nil balancer returns the nil backend. -/
theorem C10_getBackend_requires_balancer :
    (∀ (h : RPState) (lb : LBModel), h.balancer = some lb →
      GetBackend h = some lb.beResult) ∧
    GetBackend NewReverseProxy = none ∧
    (∀ h : RPState, (SetBackends h none).1.balancer = none ∧
      GetBackend (SetBackends h none).1 = none) ∧
    (∀ h : RPState, serveSelect h = ServeSelect.noBackend503 ↔
      ∃ lb, h.balancer = some lb ∧ lb.beResult = none) := by
  refine ⟨?_, rfl, ?_, ?_⟩
  · intro h lb hb
    rw [GetBackend, hb]
  · intro h
    obtain ⟨bal, conf⟩ := h
    cases bal with
    | none => exact ⟨rfl, rfl⟩
    | some lb => exact ⟨rfl, rfl⟩
  · intro h
    obtain ⟨bal, conf⟩ := h
    cases bal with
    | none => simp [serveSelect, GetBackend]
    | some lb =>
      cases hr : lb.beResult with
      | none => simp [serveSelect, GetBackend, hr]
      | some b => simp [serveSelect, GetBackend, hr]

/-- C10 witness: a proxy holding a non-nil balancer whose `Backend()` returns
the nil backend: `GetBackend` returns exactly that nil result (no fault) and
request handling takes the 503 branch. -/
theorem C10_getBackend_requires_balancer_witness :
    ({ balancer := some ⟨3, none⟩, conf := zeroConfig } : RPState).balancer =
      some ⟨3, none⟩ ∧
    GetBackend { balancer := some ⟨3, none⟩, conf := zeroConfig } =
      some (LBModel.mk 3 none).beResult ∧
    serveSelect { balancer := some ⟨3, none⟩, conf := zeroConfig } =
      ServeSelect.noBackend503 :=
  ⟨rfl, C10_getBackend_requires_balancer.1 _ _ rfl,
    (C10_getBackend_requires_balancer.2.2.2 _).mpr ⟨⟨3, none⟩, rfl, rfl⟩⟩

/-! ## Inventory persistence (src/server/inventory.go, SaveDroplets and
ReadInventory; src/server/droplet.go, Droplet) -/

/-- A droplet record as persisted in the inventory file: integer identity,
display name, addresses, forwarding host, health URL and creation time (in
nanoseconds since the epoch, as a Go `time.Time` instant). -/
structure DropletM where
  dropId : Int
  name : String
  publicIP : String
  privateIP : String
  serverHost : String
  healthURL : String
  startedNs : Int
deriving DecidableEq

/-- A backend held by an `Inventory`: either a persistable `DropletBackend`
carrying its `Droplet`, or some other `Backend` implementation (for example
the test mock), which `SaveDroplets` skips. -/
inductive BackendKind where
  | droplet (d : DropletM)
  | other (tag : String)
deriving DecidableEq

/-- `Backend.ID()` of an inventory entry: a `DropletBackend` answers
`strconv.Itoa` of its droplet identity. -/
def beID : BackendKind → String
  | .droplet d => toString d.dropId
  | .other t => t

/-- The droplet records `SaveDroplets` collects: the `Droplet` of each
`DropletBackend`, in inventory order, skipping non-droplet backends. -/
def dropletsOf : List BackendKind → List DropletM
  | [] => []
  | .droplet d :: rest => d :: dropletsOf rest
  | .other _ :: rest => dropletsOf rest

/-- `Inventory.SaveDroplets`: refuse outright when shutdown has begun
(`shutdown.Lock()` failing); otherwise persist the droplet records of all
persistable backends.  The persisted droplet list stands for the marshalled
file content. -/
def SaveDroplets (shuttingDown : Bool) (inv : List BackendKind) :
    Except String (List DropletM) :=
  if shuttingDown then
    Except.error "Unable to save inventory - server is shutting down."
  else
    Except.ok (dropletsOf inv)

/-- `ReadInventory`: construct a `DropletBackend` (`NewDropletBackend`) for
every droplet record of the parsed file, in file order. -/
def ReadInventory (ds : List DropletM) : List BackendKind :=
  ds.map BackendKind.droplet

/-- Truncation of a nanosecond timestamp to whole milliseconds. -/
def truncMs (t : Int) : Int :=
  t / 1000000 * 1000000

/-- Modelled from the spec: the TOML codec for the inventory file
(`toml.Marshal` and `toml.Unmarshal` from github.com/naoina/toml) is an
external collaborator, and the spec leaves the on-disk serialization format
out of scope while guaranteeing that Save followed by Load reproduces
identities, addresses and health URLs, and that timestamps round-trip to at
least millisecond precision.  The marshal-then-unmarshal round trip is
therefore modelled as the identity on every persisted field except the
creation timestamp, which is truncated to whole milliseconds - the weakest
behaviour the spec permits. -/
def codecRoundTrip (ds : List DropletM) : List DropletM :=
  ds.map (fun d => { d with startedNs := truncMs d.startedNs })

/-- The backend produced by saving and re-loading a droplet backend:
identical up to the timestamp truncation of the codec. -/
def truncBackend : BackendKind → BackendKind
  | .droplet d => .droplet { d with startedNs := truncMs d.startedNs }
  | .other t => .other t

theorem truncMs_idem (t : Int) : truncMs (truncMs t) = truncMs t := by
  rw [truncMs, truncMs]
  omega

theorem dropletsOf_map_trunc (l : List BackendKind) :
    dropletsOf (l.map truncBackend) =
      (dropletsOf l).map (fun d => { d with startedNs := truncMs d.startedNs }) := by
  induction l with
  | nil => rfl
  | cons be rest ih =>
    cases be with
    | droplet d => simp only [List.map_cons, truncBackend, dropletsOf, ih]
    | other t => simp only [List.map_cons, truncBackend, dropletsOf, ih]

theorem map_beID_trunc (l : List BackendKind) :
    (l.map truncBackend).map beID = l.map beID := by
  induction l with
  | nil => rfl
  | cons be rest ih =>
    cases be with
    | droplet d =>
      show beID (BackendKind.droplet { d with startedNs := truncMs d.startedNs })
          :: (rest.map truncBackend).map beID = beID (BackendKind.droplet d) :: rest.map beID
      rw [ih, beID, beID]
    | other t =>
      show beID (BackendKind.other t) :: (rest.map truncBackend).map beID
          = beID (BackendKind.other t) :: rest.map beID
      rw [ih]

/-- C9: for every inventory whose backends are all persistable droplet
backends, Save (outside shutdown) followed by Load from the same path yields
an inventory with the same sequence of backend identities, server hosts,
private IPs and health URLs, and every creation timestamp reproduced to at
least millisecond precision: the loaded inventory is exactly the original
one with each timestamp truncated to whole milliseconds, and the millisecond
truncations of the original and reloaded timestamps agree position by
position. -/
theorem C9_save_load_roundtrip (inv : List BackendKind) (ds : List DropletM)
    (hall : ∀ be ∈ inv, ∃ d, be = BackendKind.droplet d)
    (hsave : SaveDroplets false inv = Except.ok ds) :
    ReadInventory (codecRoundTrip ds) = inv.map truncBackend ∧
    (ReadInventory (codecRoundTrip ds)).map beID = inv.map beID ∧
    (dropletsOf (ReadInventory (codecRoundTrip ds))).map DropletM.serverHost =
      (dropletsOf inv).map DropletM.serverHost ∧
    (dropletsOf (ReadInventory (codecRoundTrip ds))).map DropletM.privateIP =
      (dropletsOf inv).map DropletM.privateIP ∧
    (dropletsOf (ReadInventory (codecRoundTrip ds))).map DropletM.healthURL =
      (dropletsOf inv).map DropletM.healthURL ∧
    (dropletsOf (ReadInventory (codecRoundTrip ds))).map
        (fun d => truncMs d.startedNs) =
      (dropletsOf inv).map (fun d => truncMs d.startedNs) := by
  have hds : ds = dropletsOf inv := by
    rw [SaveDroplets, if_neg (by simp)] at hsave
    exact (Except.ok.inj hsave).symm
  subst hds
  have hmain : ∀ l : List BackendKind, (∀ be ∈ l, ∃ d, be = BackendKind.droplet d) →
      ReadInventory (codecRoundTrip (dropletsOf l)) = l.map truncBackend := by
    intro l
    induction l with
    | nil => intro _; rfl
    | cons be rest ih =>
      intro hl
      obtain ⟨d, rfl⟩ := hl be (by simp)
      have hrest := ih (fun b hb => hl b (by simp [hb]))
      show ReadInventory (codecRoundTrip (d :: dropletsOf rest)) =
        truncBackend (BackendKind.droplet d) :: rest.map truncBackend
      rw [codecRoundTrip, List.map_cons, ReadInventory, List.map_cons]
      rw [codecRoundTrip, ReadInventory] at hrest
      rw [hrest, truncBackend]
  have hmaineq := hmain inv hall
  refine ⟨hmaineq, ?_, ?_, ?_, ?_, ?_⟩ <;> rw [hmaineq]
  · exact map_beID_trunc inv
  · rw [dropletsOf_map_trunc, List.map_map]
    congr 1
  · rw [dropletsOf_map_trunc, List.map_map]
    congr 1
  · rw [dropletsOf_map_trunc, List.map_map]
    congr 1
  · rw [dropletsOf_map_trunc, List.map_map]
    congr 1
    funext d
    show truncMs (truncMs d.startedNs) = truncMs d.startedNs
    exact truncMs_idem d.startedNs

/-- A concrete persistable droplet backend used by the C9 witness. -/
def c9d1 : DropletM :=
  { dropId := 1, name := "auto-nginx 1", publicIP := ""
  , privateIP := "192.168.0.1", serverHost := "192.168.0.1:8080"
  , healthURL := "http://192.168.0.1:8000/index.html"
  , startedNs := 1425473900123456789 }

/-- A second concrete droplet backend (negative identity, as the test
inventory allows) used by the C9 witness. -/
def c9d2 : DropletM :=
  { dropId := -73, name := "auto-nginx 3", publicIP := ""
  , privateIP := "192.168.0.3", serverHost := "192.168.0.3:8080"
  , healthURL := "http://192.168.0.3:8000/index.html"
  , startedNs := 999999 }

/-- The concrete all-droplet inventory of the C9 witness. -/
def c9inv : List BackendKind :=
  [BackendKind.droplet c9d1, BackendKind.droplet c9d2]

/-- C9 witness: the round-trip theorem evaluated on a concrete two-droplet
inventory (one of the timestamps not on a millisecond boundary). -/
theorem C9_save_load_roundtrip_witness :
    (∀ be ∈ c9inv, ∃ d, be = BackendKind.droplet d) ∧
    SaveDroplets false c9inv = Except.ok [c9d1, c9d2] ∧
    (ReadInventory (codecRoundTrip [c9d1, c9d2]) = c9inv.map truncBackend ∧
      (ReadInventory (codecRoundTrip [c9d1, c9d2])).map beID = c9inv.map beID ∧
      (dropletsOf (ReadInventory (codecRoundTrip [c9d1, c9d2]))).map DropletM.serverHost =
        (dropletsOf c9inv).map DropletM.serverHost ∧
      (dropletsOf (ReadInventory (codecRoundTrip [c9d1, c9d2]))).map DropletM.privateIP =
        (dropletsOf c9inv).map DropletM.privateIP ∧
      (dropletsOf (ReadInventory (codecRoundTrip [c9d1, c9d2]))).map DropletM.healthURL =
        (dropletsOf c9inv).map DropletM.healthURL ∧
      (dropletsOf (ReadInventory (codecRoundTrip [c9d1, c9d2]))).map
          (fun d => truncMs d.startedNs) =
        (dropletsOf c9inv).map (fun d => truncMs d.startedNs)) := by
  have h1 : ∀ be ∈ c9inv, ∃ d, be = BackendKind.droplet d := by
    intro be hbe
    rw [c9inv] at hbe
    rcases List.mem_cons.mp hbe with rfl | hbe2
    · exact ⟨c9d1, rfl⟩
    · rcases List.mem_cons.mp hbe2 with rfl | hbe3
      · exact ⟨c9d2, rfl⟩
      · exact absurd hbe3 (List.not_mem_nil _)
  have h2 : SaveDroplets false c9inv = Except.ok [c9d1, c9d2] := rfl
  exact ⟨h1, h2, C9_save_load_roundtrip c9inv [c9d1, c9d2] h1 h2⟩
